import Mathlib

/-!
# roblox-audio-api: the identifier extractor and the audio resolution handler

A shallow embedding of `server.js`:

* `extractVideoId` (lines 16-26), over a model of the JavaScript string
  built-ins it uses (`includes`, `split`, `match` with the one regular
  expression of the file, `length`);
* the four providers `tryRapidAPI`, `tryYouTubeExplode`, `tryYtDlp`,
  `tryOEmbed` (lines 29-184) as functions of the upstream payload they receive;
* the handlers of `/api/audio` (lines 187-265) and `/api/test/:videoId`
  (lines 307-359) as state-passing functions over the result cache, recording
  the cache operations and provider invocations they perform.
-/

namespace AudioApi

/-! ## JavaScript strings -/

/-- A JavaScript string, as the list of its Unicode code points (well-formed
UTF-16 text). -/
abbrev JSString := List Char

/-- Number of UTF-16 code units of one code point. -/
def codeUnits (c : Char) : Nat := if c.toNat < 65536 then 1 else 2

/-- The `length` property of a string: its number of UTF-16 code units. -/
def jsLength : JSString → Nat
  | [] => 0
  | c :: cs => codeUnits c + jsLength cs

/-- Search for the first occurrence of `pat`: the text before it and the text
after it, or `none` when `pat` does not occur. -/
def cut (pat : JSString) : JSString → Option (JSString × JSString)
  | [] => if pat = [] then some ([], []) else none
  | c :: cs =>
    if pat.isPrefixOf (c :: cs) then some ([], (c :: cs).drop pat.length)
    else match cut pat cs with
      | some (a, b) => some (c :: a, b)
      | none => none

/-- The method `String.prototype.includes`. -/
def includes (pat s : JSString) : Bool := (cut pat s).isSome

/-- Worker of `split`: at most `fuel` separators are consumed. -/
def splitFuel (sep : JSString) : Nat → JSString → List JSString
  | 0, s => [s]
  | fuel + 1, s =>
    match cut sep s with
    | none => [s]
    | some (a, b) => a :: splitFuel sep fuel b

/-- The method `String.prototype.split` for a non-empty separator. A string
holds at most `s.length` separators (`split_unfold`). -/
def split (sep s : JSString) : List JSString := splitFuel sep s.length s

/-- The method `url.match(/[?&]v=([^&]+)/)`, reduced to what the caller reads
from it: capture group 1 of the leftmost match, or `none` when there is no
match (`null`). -/
def matchV : JSString → Option JSString
  | [] => none
  | c :: cs =>
    if (c = '?' ∨ c = '&') ∧ cs.take 2 = ['v', '='] ∧
        (cs.drop 2).takeWhile (fun x => decide (x ≠ '&')) ≠ [] then
      some ((cs.drop 2).takeWhile (fun x => decide (x ≠ '&')))
    else matchV cs

/-- The short-link marker. -/
def shortMarker : JSString := "youtu.be/".toList

/-- The watch-URL marker. -/
def watchMarker : JSString := "youtube.com/watch".toList

/-- The function `extractVideoId` (server.js 16-26); `none` is `null`.
In the first branch `split(...)[1]` is defined whenever `includes` holds
(`split_second`), so the `none` of the index lookups is never taken. -/
def extractVideoId (url : JSString) : Option JSString :=
  if includes shortMarker url then
    match (split shortMarker url)[1]? with
    | some piece => (split "?".toList piece)[0]?
    | none => none
  else if includes watchMarker url then
    matchV url
  else if jsLength url = 11 then
    some url
  else none

/-! ## JavaScript values and the normalized result object -/

/-- A JavaScript value as far as the handlers observe one. Numbers are
represented by their rational value; objects and arrays by an opaque tag. -/
inductive JSVal where
  | undefined
  | null
  | bool (b : Bool)
  | num (x : ℚ)
  | str (s : JSString)
  | object (tag : Nat)
  deriving DecidableEq

/-- Truthiness: the outcome of using a value as a condition. -/
def truthy : JSVal → Bool
  | .undefined => false
  | .null => false
  | .bool b => b
  | .num x => decide (x ≠ 0)
  | .str s => decide (s ≠ [])
  | .object _ => true

/-- The operator `a || b`. -/
def jsOr (a b : JSVal) : JSVal := if truthy a then a else b

/-- The object literal every provider returns (server.js 50-61, 92-103,
140-151, 167-179). `warning` is a property only `tryOEmbed` sets. -/
structure Result where
  success : Bool
  videoId : JSString
  title : JSVal
  author : JSVal
  duration : JSVal
  thumbnail : JSVal
  audioUrl : JSVal
  quality : JSVal
  views : JSVal
  source : String
  warning : Option String
  deriving DecidableEq

/-! ## Upstream payloads and the four providers -/

/-- The fields read from `response.data` of the two keyed services. -/
structure KeyedData where
  status : JSVal
  link : JSVal
  title : JSVal
  author : JSVal
  duration : JSVal
  quality : JSVal

/-- The fields read from the JSON document printed by `yt-dlp --dump-json`. -/
structure YtDlpData where
  title : JSVal
  uploader : JSVal
  channel : JSVal
  duration : JSVal
  thumbnail : JSVal
  url : JSVal
  abr : JSVal
  view_count : JSVal

/-- The fields read from `response.data` of the oEmbed endpoint. -/
structure OEmbedData where
  title : JSVal
  author_name : JSVal
  thumbnail_url : JSVal

/-- What the process receives from outside during one request. A payload of
`none` stands for every way the call throws (network error, timeout, non-2xx
status, failed exec, unparsable output, `null` body). `roundText x` is the text
of `Math.round(x)` inside a template literal; floating-point rounding and
number formatting are not modelled. -/
structure Upstream where
  envRapidApiKey : Option JSString
  rapidApi : JSString → Option KeyedData
  youTubeExplode : JSString → Option KeyedData
  ytDlpInstalled : Bool
  ytDlpDump : JSString → Option YtDlpData
  oEmbed : JSString → Option OEmbedData
  roundText : JSVal → JSString

/-- The placeholder key. -/
def keyPlaceholder : JSString := "YOUR_RAPIDAPI_KEY_HERE".toList

/-- The constant `RAPIDAPI_KEY` (server.js 14):
`process.env.RAPIDAPI_KEY || 'YOUR_RAPIDAPI_KEY_HERE'`. -/
def rapidApiKeyOf (env : Option JSString) : JSString :=
  match env with
  | some k => if k ≠ [] then k else keyPlaceholder
  | none => keyPlaceholder

/-- The thumbnail template of the keyed services. -/
def maxresThumbnail (videoId : JSString) : JSString :=
  "https://img.youtube.com/vi/".toList ++ videoId ++ "/maxresdefault.jpg".toList

/-- The function `tryRapidAPI` (server.js 29-69). -/
def tryRapidAPI (u : Upstream) (videoId : JSString) : Option Result :=
  if rapidApiKeyOf u.envRapidApiKey = [] ∨ rapidApiKeyOf u.envRapidApiKey = keyPlaceholder then
    none
  else
    match u.rapidApi videoId with
    | none => none
    | some data =>
      if data.status = .str "ok".toList ∧ truthy data.link = true then
        some { success := true
               videoId := videoId
               title := data.title
               author := jsOr data.author (.str "Unknown".toList)
               duration := jsOr data.duration (.num 0)
               thumbnail := .str (maxresThumbnail videoId)
               audioUrl := data.link
               quality := .str "128kbps".toList
               views := .num 0
               source := "rapidapi"
               warning := none }
      else none

/-- The function `tryYouTubeExplode` (server.js 72-111). -/
def tryYouTubeExplode (u : Upstream) (videoId : JSString) : Option Result :=
  if rapidApiKeyOf u.envRapidApiKey = [] ∨ rapidApiKeyOf u.envRapidApiKey = keyPlaceholder then
    none
  else
    match u.youTubeExplode videoId with
    | none => none
    | some data =>
      if data.status = .str "ok".toList ∧ truthy data.link = true then
        some { success := true
               videoId := videoId
               title := data.title
               author := jsOr data.author (.str "Unknown".toList)
               duration := jsOr data.duration (.num 0)
               thumbnail := .str (maxresThumbnail videoId)
               audioUrl := data.link
               quality := jsOr data.quality (.str "128kbps".toList)
               views := .num 0
               source := "youtube_explode"
               warning := none }
      else none

/-- The function `tryYtDlp` (server.js 114-156). -/
def tryYtDlp (u : Upstream) (videoId : JSString) : Option Result :=
  if u.ytDlpInstalled = false then none
  else
    match u.ytDlpDump videoId with
    | none => none
    | some data =>
      some { success := true
             videoId := videoId
             title := data.title
             author := jsOr data.uploader data.channel
             duration := data.duration
             thumbnail := data.thumbnail
             audioUrl := data.url
             quality := .str (u.roundText (jsOr data.abr (.num 0)) ++ "kbps".toList)
             views := jsOr data.view_count (.num 0)
             source := "yt-dlp"
             warning := none }

/-- The warning text of `tryOEmbed`. -/
def oEmbedWarning : String :=
  "Audio URL not available - info only. Please configure RapidAPI key or install yt-dlp."

/-- The function `tryOEmbed` (server.js 159-184). -/
def tryOEmbed (u : Upstream) (videoId : JSString) : Option Result :=
  match u.oEmbed videoId with
  | none => none
  | some data =>
    some { success := true
           videoId := videoId
           title := data.title
           author := data.author_name
           duration := .num 0
           thumbnail := data.thumbnail_url
           audioUrl := .null
           quality := .str "N/A".toList
           views := .num 0
           source := "oembed"
           warning := some oEmbedWarning }

/-- The four provider names, in the order the handlers call them. -/
inductive Provider where
  | ytDlp
  | rapidAPI
  | youTubeExplode
  | oEmbed
  deriving DecidableEq

/-- The outcome of each provider call of one request: `none` is `null`. -/
structure Providers where
  tryYtDlp : JSString → Option Result
  tryRapidAPI : JSString → Option Result
  tryYouTubeExplode : JSString → Option Result
  tryOEmbed : JSString → Option Result

/-- The providers of the source, run against one state of the outside world. -/
def providersOf (u : Upstream) : Providers :=
  { tryYtDlp := tryYtDlp u
    tryRapidAPI := tryRapidAPI u
    tryYouTubeExplode := tryYouTubeExplode u
    tryOEmbed := tryOEmbed u }

/-! ## The result cache -/

/-- The option `stdTTL` of the cache (server.js 7), in seconds. -/
def stdTTL : Nat := 3600

/-- One cache entry: identifier, result and insertion time (milliseconds). -/
structure Entry where
  key : JSString
  value : Result
  inserted : Nat
  deriving DecidableEq

/-- Modelled from the spec: the `node-cache` store behind `cache` (an npm
dependency, absent from the sources) as the spec's Result Cache, a map from
identifier to result with a stored insertion time, an entry being treated as
absent once the TTL has elapsed since insertion, checked lazily on lookup. -/
abbrev Cache := List Entry

/-- Modelled from the spec: `cache.get(key)` at time `now`, the entry of `key`
unless it is older than the TTL. -/
def Cache.get (c : Cache) (now : Nat) (key : JSString) : Option Result :=
  match c.find? (fun e => decide (e.key = key)) with
  | some e => if now ≤ e.inserted + stdTTL * 1000 then some e.value else none
  | none => none

/-- Modelled from the spec: `cache.set(key, value)` at time `now`, replacing
any entry of `key`. -/
def Cache.set (c : Cache) (now : Nat) (key : JSString) (value : Result) : Cache :=
  { key := key, value := value, inserted := now } :: c.filter (fun e => decide (e.key ≠ key))

/-! ## The handlers -/

/-- The query parameters `url` and `v` of a request (`none`: not given). -/
structure Query where
  url : Option JSString
  v : Option JSString

/-- The expression `req.query.url || req.query.v` (server.js 189). -/
def queryInput (q : Query) : Option JSString :=
  match q.url with
  | some s => if s ≠ [] then some s else q.v
  | none => q.v

/-- The clock readings of one request: at the cache lookup and at the cache
insertion. -/
structure Clock where
  atGet : Nat
  atSet : Nat

/-- One entry of the report of `/api/test/:videoId`. -/
structure ProbeEntry where
  status : String
  hasAudio : Bool
  note : Option String
  deriving DecidableEq

/-- The body of the answer of `/api/test/:videoId` (server.js 312-356). -/
structure TestReport where
  videoId : JSString
  timestamp : JSString
  rapidapi_key_set : Bool
  yt_dlp : ProbeEntry
  rapidapi : ProbeEntry
  youtube_explode : ProbeEntry
  oembed : ProbeEntry
  recommendation : String
  deriving DecidableEq

/-- What a handler answers: `ok` is `res.json(result)` (status 200),
`badRequest` is `res.status(400).json` of `success: false` and `error`,
`failure` is `res.status(500).json` of `success: false`, `error`, `details`
and `setup_instructions`, and `report` is `res.json(results)` of the test
endpoint. -/
inductive Response where
  | ok (r : Result)
  | badRequest (error : String)
  | failure (error : String) (details : String) (setup_instructions : List (String × String))
  | report (r : TestReport)
  deriving DecidableEq

/-- The HTTP status of an answer. -/
def Response.status : Response → Nat
  | .ok _ => 200
  | .badRequest _ => 400
  | .failure _ _ _ => 500
  | .report _ => 200

/-- The `success` property of an answer body, when it has one. -/
def Response.success : Response → Option Bool
  | .ok r => some r.success
  | .badRequest _ => some false
  | .failure _ _ _ => some false
  | .report _ => none

/-- An operation on the cache or a provider call, as a handler performs it. -/
inductive Event where
  | cacheGet (key : JSString)
  | cacheSet (key : JSString) (value : Result)
  | invoke (p : Provider) (videoId : JSString)
  deriving DecidableEq

/-- The effect of one request: the answer, the cache afterwards, and the
operations performed, in order. -/
structure Outcome where
  response : Response
  cache : Cache
  trace : List Event

/-- The condition `result && result.audioUrl` (server.js 211, 221, 229, 237). -/
def hasAudio : Option Result → Bool
  | some r => truthy r.audioUrl
  | none => false

/-- The object `setup_instructions` of the failure answer (server.js 258-262). -/
def setupInstructions : List (String × String) :=
  [("option1", "Install yt-dlp: https://github.com/yt-dlp/yt-dlp/releases"),
   ("option2", "Get RapidAPI key: https://rapidapi.com/ytjar/api/youtube-mp3-download1"),
   ("option3", "Set environment variable: RAPIDAPI_KEY=your_key_here")]

/-- The answer of the `catch` block (server.js 252-264) for a thrown
`Error(message)`. -/
def failureResponse (message : String) : Response :=
  .failure "Failed to process video" message setupInstructions

/-- The fallback `tryOEmbed` and the final `throw` (server.js 243-250); `tr`
holds the operations already performed. -/
def tryAfterExplode (p : Providers) (cache : Cache) (videoId : JSString)
    (tr : List Event) : Outcome :=
  match p.tryOEmbed videoId with
  | some result =>
    { response := .ok result
      cache := cache
      trace := tr ++ [.invoke .oEmbed videoId] }
  | none =>
    { response := failureResponse "All methods failed"
      cache := cache
      trace := tr ++ [.invoke .oEmbed videoId] }

/-- From `tryYouTubeExplode` on (server.js 235-250). -/
def tryAfterRapidAPI (p : Providers) (clk : Clock) (cache : Cache) (videoId : JSString)
    (tr : List Event) : Outcome :=
  match p.tryYouTubeExplode videoId with
  | some result =>
    if truthy result.audioUrl then
      { response := .ok result
        cache := cache.set clk.atSet videoId result
        trace := tr ++ [.invoke .youTubeExplode videoId, .cacheSet videoId result] }
    else tryAfterExplode p cache videoId (tr ++ [.invoke .youTubeExplode videoId])
  | none => tryAfterExplode p cache videoId (tr ++ [.invoke .youTubeExplode videoId])

/-- From `tryRapidAPI` on (server.js 227-250). -/
def tryAfterYtDlp (p : Providers) (clk : Clock) (cache : Cache) (videoId : JSString)
    (tr : List Event) : Outcome :=
  match p.tryRapidAPI videoId with
  | some result =>
    if truthy result.audioUrl then
      { response := .ok result
        cache := cache.set clk.atSet videoId result
        trace := tr ++ [.invoke .rapidAPI videoId, .cacheSet videoId result] }
    else tryAfterRapidAPI p clk cache videoId (tr ++ [.invoke .rapidAPI videoId])
  | none => tryAfterRapidAPI p clk cache videoId (tr ++ [.invoke .rapidAPI videoId])

/-- The part of the `/api/audio` handler after the cache lookup missed
(server.js 216-250): the providers in order. -/
def tryMethods (p : Providers) (clk : Clock) (cache : Cache) (videoId : JSString)
    (tr : List Event) : Outcome :=
  match p.tryYtDlp videoId with
  | some result =>
    if truthy result.audioUrl then
      { response := .ok result
        cache := cache.set clk.atSet videoId result
        trace := tr ++ [.invoke .ytDlp videoId, .cacheSet videoId result] }
    else tryAfterYtDlp p clk cache videoId (tr ++ [.invoke .ytDlp videoId])
  | none => tryAfterYtDlp p clk cache videoId (tr ++ [.invoke .ytDlp videoId])

/-- The handler of `GET /api/audio` (server.js 187-265), for string-valued
query parameters. -/
def apiAudio (p : Providers) (clk : Clock) (cache : Cache) (req : Query) : Outcome :=
  match queryInput req with
  | none =>
    { response := .badRequest "No URL provided. Use ?url=YOUTUBE_URL or ?v=VIDEO_ID"
      cache := cache, trace := [] }
  | some url =>
    if url = [] then
      { response := .badRequest "No URL provided. Use ?url=YOUTUBE_URL or ?v=VIDEO_ID"
        cache := cache, trace := [] }
    else
      match extractVideoId url with
      | none =>
        { response := .badRequest "Invalid YouTube URL or video ID"
          cache := cache, trace := [] }
      | some videoId =>
        if videoId = [] then
          { response := .badRequest "Invalid YouTube URL or video ID"
            cache := cache, trace := [] }
        else
          match cache.get clk.atGet videoId with
          | some cached =>
            if truthy cached.audioUrl then
              { response := .ok cached, cache := cache, trace := [.cacheGet videoId] }
            else tryMethods p clk cache videoId [.cacheGet videoId]
          | none => tryMethods p clk cache videoId [.cacheGet videoId]

/-- The handler of `GET /api/test/:videoId` (server.js 307-359); `key` is the
constant `RAPIDAPI_KEY` and `timestamp` the text of `new Date().toISOString()`. -/
def apiTest (key : JSString) (p : Providers) (timestamp : JSString) (cache : Cache)
    (videoId : JSString) : Outcome :=
  let ytdlpResult := p.tryYtDlp videoId
  let rapidResult := p.tryRapidAPI videoId
  let explodeResult := p.tryYouTubeExplode videoId
  let oembedResult := p.tryOEmbed videoId
  let status (r : Option Result) : String := if r.isSome then "SUCCESS ✅" else "FAILED ❌"
  { response := .report
      { videoId := videoId
        timestamp := timestamp
        rapidapi_key_set := decide (key ≠ keyPlaceholder)
        yt_dlp :=
          { status := status ytdlpResult
            hasAudio := hasAudio ytdlpResult
            note := some (if ytdlpResult.isSome then "Working!"
              else "Not installed. Install from: https://github.com/yt-dlp/yt-dlp/releases") }
        rapidapi :=
          { status := status rapidResult
            hasAudio := hasAudio rapidResult
            note := some (if rapidResult.isSome then "Working!"
              else if key = keyPlaceholder then
                "Not configured. Get key from: https://rapidapi.com/ytjar/api/youtube-mp3-download1"
              else "Check your API key") }
        youtube_explode :=
          { status := status explodeResult
            hasAudio := hasAudio explodeResult
            note := none }
        oembed :=
          { status := status oembedResult
            hasAudio := false
            note := some "Info only, no audio URL" }
        recommendation :=
          if ytdlpResult.isSome ∨ rapidResult.isSome then "✅ API is working!"
          else "⚠️ No working method found. Please install yt-dlp or configure RapidAPI." }
    cache := cache
    trace := [.invoke .ytDlp videoId, .invoke .rapidAPI videoId,
      .invoke .youTubeExplode videoId, .invoke .oEmbed videoId] }

/-! ## Claim-side vocabulary -/

/-- The identifier alphabet `[A-Za-z0-9_-]`. -/
def idChar (c : Char) : Bool :=
  decide ((65 ≤ c.toNat ∧ c.toNat ≤ 90) ∨ (97 ≤ c.toNat ∧ c.toNat ≤ 122) ∨
    (48 ≤ c.toNat ∧ c.toNat ≤ 57) ∨ c.toNat = 95 ∨ c.toNat = 45)

/-- The text of `s` after the first occurrence of `pat` (empty when `pat` does
not occur). -/
def textAfter (pat s : JSString) : JSString :=
  match cut pat s with
  | some (_, b) => b
  | none => []

/-- The text of `s` before the first occurrence of `pat`, or all of `s` when
`pat` does not occur. -/
def textBefore (pat s : JSString) : JSString :=
  match cut pat s with
  | some (a, _) => a
  | none => s

/-- No occurrence of `pat` starts inside `pre`, whatever text follows `pre`. -/
def clearOf (pat : JSString) : JSString → Bool
  | [] => true
  | c :: cs => !(pat.take (cs.length + 1)).isPrefixOf (c :: cs) && clearOf pat cs

/-- Dispatch of a provider name to its outcome function. -/
def Providers.run (p : Providers) : Provider → JSString → Option Result
  | .ytDlp => p.tryYtDlp
  | .rapidAPI => p.tryRapidAPI
  | .youTubeExplode => p.tryYouTubeExplode
  | .oEmbed => p.tryOEmbed

/-- The stream-capable providers, in call order. -/
def streamCapable : List Provider := [.ytDlp, .rapidAPI, .youTubeExplode]

/-- All providers, in call order. -/
def callOrder : List Provider := [.ytDlp, .rapidAPI, .youTubeExplode, .oEmbed]

/-- The provider calls in a list of operations. -/
def invocations : List Event → List Provider
  | [] => []
  | .invoke p _ :: es => p :: invocations es
  | _ :: es => invocations es

/-- Every entry holds a truthy `audioUrl` under a non-empty key. -/
def Cache.Sound (c : Cache) : Prop :=
  ∀ e ∈ c, truthy e.value.audioUrl = true ∧ e.key ≠ []

/-- The cache states reachable from the empty cache by requests to
`/api/audio` and `/api/test/:videoId`. -/
inductive Reachable : Cache → Prop
  | empty : Reachable []
  | audio (p : Providers) (clk : Clock) (req : Query) {c : Cache} :
      Reachable c → Reachable (apiAudio p clk c req).cache
  | test (key : JSString) (p : Providers) (ts : JSString) (videoId : JSString) {c : Cache} :
      Reachable c → Reachable (apiTest key p ts c videoId).cache

/-! ## Sample data -/

/-- A sample identifier. -/
def sampleId : JSString := "dQw4w9WgXcQ".toList

/-- A sample stream-capable result for `videoId`. -/
def sampleResult (videoId : JSString) : Result :=
  { success := true
    videoId := videoId
    title := .str "Sample".toList
    author := .str "Uploader".toList
    duration := .num 0
    thumbnail := .undefined
    audioUrl := .str "https://cdn.example/audio.m4a".toList
    quality := .str "128kbps".toList
    views := .num 0
    source := "rapidapi"
    warning := none }

/-- Providers that all return `null`. -/
def nullProviders : Providers :=
  { tryYtDlp := fun _ => none
    tryRapidAPI := fun _ => none
    tryYouTubeExplode := fun _ => none
    tryOEmbed := fun _ => none }

/-- Providers of which only `tryRapidAPI` returns a result. -/
def rapidOnlyProviders : Providers :=
  { tryYtDlp := fun _ => none
    tryRapidAPI := fun videoId => some (sampleResult videoId)
    tryYouTubeExplode := fun _ => none
    tryOEmbed := fun _ => none }

/-- An outside world without key and without yt-dlp, where oEmbed answers with
a title and a thumbnail but no `author_name`, and yt-dlp (were it installed)
would print a document without `uploader` and `channel`. -/
def sampleUpstream : Upstream :=
  { envRapidApiKey := none
    rapidApi := fun _ => none
    youTubeExplode := fun _ => none
    ytDlpInstalled := false
    ytDlpDump := fun _ => some
      { title := .str "Sample".toList, uploader := .undefined, channel := .undefined
        duration := .num 0, thumbnail := .undefined
        url := .str "https://cdn.example/audio.m4a".toList
        abr := .undefined, view_count := .undefined }
    oEmbed := fun _ => some
      { title := .str "Sample".toList, author_name := .undefined
        thumbnail_url := .str "https://i.ytimg.com/vi/x/hqdefault.jpg".toList }
    roundText := fun _ => "0".toList }

/-- The sample world with yt-dlp installed. -/
def sampleUpstreamYtDlp : Upstream := { sampleUpstream with ytDlpInstalled := true }

/-- A request `?v=dQw4w9WgXcQ`. -/
def sampleQuery : Query := { url := none, v := some sampleId }

/-- A clock reading. -/
def sampleClock : Clock := { atGet := 1000, atSet := 2000 }

/-! ## The string built-ins -/

theorem cut_eq_some {pat : JSString} : ∀ {s a b : JSString},
    cut pat s = some (a, b) → s = a ++ pat ++ b := by
  intro s
  induction s with
  | nil =>
    intro a b h
    unfold cut at h
    split at h
    · rename_i hp
      simp at h
      obtain ⟨rfl, rfl⟩ := h
      simp [hp]
    · simp at h
  | cons c cs ih =>
    intro a b h
    unfold cut at h
    split at h
    · rename_i hp
      simp only [Option.some.injEq, Prod.mk.injEq] at h
      obtain ⟨rfl, rfl⟩ := h
      have hp2 : pat <+: c :: cs := List.isPrefixOf_iff_prefix.mp hp
      simpa using (List.prefix_iff_eq_append.mp hp2).symm
    · split at h
      · rename_i a0 b0 hc
        simp only [Option.some.injEq, Prod.mk.injEq] at h
        obtain ⟨rfl, rfl⟩ := h
        simp [ih hc]
      · simp at h

theorem includes_iff_occurs (pat s : JSString) : includes pat s = true ↔ pat <:+: s := by
  constructor
  · intro h
    unfold includes at h
    rw [Option.isSome_iff_exists] at h
    obtain ⟨⟨a, b⟩, hab⟩ := h
    exact ⟨a, b, (cut_eq_some hab).symm⟩
  · rintro ⟨a, b, rfl⟩
    unfold includes
    induction a with
    | nil =>
      cases hp : pat with
      | nil => cases b <;> simp [cut]
      | cons p ps =>
        have : (p :: ps).isPrefixOf (p :: ps ++ b) = true :=
          List.isPrefixOf_iff_prefix.mpr (List.prefix_append _ _)
        simp only [List.nil_append, List.cons_append] at this ⊢
        simp [cut, this]
    | cons x a ih =>
      simp only [List.cons_append, List.append_assoc] at ih ⊢
      unfold cut
      split
      · simp
      · cases hc : cut pat (a ++ (pat ++ b)) with
        | none => simp [hc] at ih
        | some ab => simp

/-- The occurrence found by `cut` is the first one. -/
theorem cut_first {pat : JSString} : ∀ {s a b : JSString},
    cut pat s = some (a, b) → ∀ a1 b1, s = a1 ++ pat ++ b1 → a.length ≤ a1.length := by
  intro s
  induction s with
  | nil =>
    intro a b h a1 b1 _
    unfold cut at h
    split at h
    · simp at h; simp [h.1]
    · simp at h
  | cons c cs ih =>
    intro a b h a1 b1 hs
    unfold cut at h
    split at h
    · simp only [Option.some.injEq, Prod.mk.injEq] at h
      simp [← h.1]
    · rename_i hp
      split at h
      · rename_i a0 b0 hc
        simp only [Option.some.injEq, Prod.mk.injEq] at h
        obtain ⟨rfl, rfl⟩ := h
        cases a1 with
        | nil =>
          exfalso
          apply hp
          rw [hs]
          exact List.isPrefixOf_iff_prefix.mpr ⟨b1, by simp⟩
        | cons x a2 =>
          simp only [List.cons_append, List.cons.injEq] at hs
          have := ih hc a2 b1 hs.2
          simp
          omega
      · simp at h

theorem cut_length_lt {pat s a b : JSString} (hp : pat ≠ []) (h : cut pat s = some (a, b)) :
    b.length < s.length := by
  have := cut_eq_some h
  have hl : 0 < pat.length := List.length_pos.mpr hp
  rw [this]
  simp
  omega

theorem cut_nil_of_ne {pat : JSString} (hp : pat ≠ []) : cut pat [] = none := by
  simp [cut, hp]

theorem splitFuel_stable {sep : JSString} (hp : sep ≠ []) :
    ∀ (n m : Nat) (s : JSString), s.length ≤ n → s.length ≤ m →
      splitFuel sep n s = splitFuel sep m s := by
  intro n
  induction n with
  | zero =>
    intro m s hn _
    have hs : s = [] := List.length_eq_zero.mp (Nat.le_zero.mp hn)
    subst hs
    cases m with
    | zero => rfl
    | succ m => simp [splitFuel, cut_nil_of_ne hp]
  | succ n ih =>
    intro m s hn hm
    cases m with
    | zero =>
      have hs : s = [] := List.length_eq_zero.mp (Nat.le_zero.mp hm)
      subst hs
      simp [splitFuel, cut_nil_of_ne hp]
    | succ m =>
      simp only [splitFuel]
      cases hc : cut sep s with
      | none => rfl
      | some ab =>
        obtain ⟨a, b⟩ := ab
        have := cut_length_lt hp hc
        simp only
        rw [ih m b (by omega) (by omega)]

/-- The recursion equation of `split`: the fuel never runs out. -/
theorem split_unfold {sep : JSString} (hp : sep ≠ []) (s : JSString) :
    split sep s = match cut sep s with
      | none => [s]
      | some (a, b) => a :: split sep b := by
  unfold split
  cases hs : s.length with
  | zero =>
    have : s = [] := List.length_eq_zero.mp hs
    subst this
    simp [splitFuel, cut_nil_of_ne hp]
  | succ n =>
    simp only [splitFuel]
    cases hc : cut sep s with
    | none => rfl
    | some ab =>
      obtain ⟨a, b⟩ := ab
      have := cut_length_lt hp hc
      simp only
      rw [splitFuel_stable hp n b.length b (by omega) le_rfl]

theorem split_head {sep : JSString} (hp : sep ≠ []) (s : JSString) :
    (split sep s)[0]? = some (textBefore sep s) := by
  rw [split_unfold hp, textBefore]
  cases hc : cut sep s with
  | none => simp
  | some ab =>
    obtain ⟨a, b⟩ := ab
    simp

theorem split_second {sep : JSString} (hp : sep ≠ []) (s : JSString)
    (h : includes sep s = true) :
    (split sep s)[1]? = some (textBefore sep (textAfter sep s)) := by
  rw [split_unfold hp, textAfter]
  unfold includes at h
  cases hc : cut sep s with
  | none => simp [hc] at h
  | some ab =>
    obtain ⟨a, b⟩ := ab
    simp only [List.getElem?_cons_succ]
    exact split_head hp b

theorem shortMarker_ne : shortMarker ≠ [] := by decide
theorem question_ne : "?".toList ≠ [] := by decide

theorem extract_short (raw : JSString) (h : includes shortMarker raw = true) :
    extractVideoId raw =
      some (textBefore "?".toList (textBefore shortMarker (textAfter shortMarker raw))) := by
  unfold extractVideoId
  rw [if_pos h, split_second shortMarker_ne raw h]
  exact split_head question_ne _

/-! ## The identifier extractor -/

theorem cut_none_of_not_mem {pat s : JSString} {x : Char} (hx : x ∈ pat) (hs : x ∉ s) :
    cut pat s = none := by
  cases hc : cut pat s with
  | none => rfl
  | some ab =>
    obtain ⟨a, b⟩ := ab
    exfalso
    apply hs
    rw [cut_eq_some hc]
    simp [hx]

theorem idChar_codeUnits {c : Char} (h : idChar c = true) : codeUnits c = 1 := by
  unfold idChar at h
  unfold codeUnits
  simp only [decide_eq_true_eq] at h
  rw [if_pos (by omega)]

theorem idChar_ne {c : Char} (h : idChar c = true) (x : Char) (hx : idChar x = false) :
    c ≠ x := by
  rintro rfl
  rw [h] at hx
  exact Bool.noConfusion hx

theorem jsLength_idChars : ∀ (s : JSString), (∀ c ∈ s, idChar c = true) →
    jsLength s = s.length := by
  intro s
  induction s with
  | nil => intro _; rfl
  | cons c cs ih =>
    intro h
    simp only [jsLength, List.length_cons]
    rw [idChar_codeUnits (h c (List.mem_cons_self _ _)),
      ih (fun d hd => h d (List.mem_cons_of_mem _ hd))]
    omega

theorem not_mem_idChars {s : JSString} (h : ∀ c ∈ s, idChar c = true) (x : Char)
    (hx : idChar x = false) : x ∉ s := by
  intro hm
  rw [h x hm] at hx
  exact Bool.noConfusion hx

theorem textBefore_of_not_mem {pat s : JSString} {x : Char} (hx : x ∈ pat) (hs : x ∉ s) :
    textBefore pat s = s := by
  simp [textBefore, cut_none_of_not_mem hx hs]

theorem takeWhile_all {p : Char → Bool} : ∀ (s : JSString), (∀ c ∈ s, p c = true) →
    s.takeWhile p = s := by
  intro s h
  exact List.takeWhile_eq_self_iff.mpr h

theorem isPrefixOf_append_false : ∀ (t pat s : JSString),
    (pat.take t.length).isPrefixOf t = false → pat.isPrefixOf (t ++ s) = false := by
  intro t
  induction t with
  | nil => intro pat s h; simp at h
  | cons c cs ih =>
    intro pat s h
    cases pat with
    | nil => simp at h
    | cons p ps =>
      simp only [List.length_cons, List.take_succ_cons, List.isPrefixOf, Bool.and_eq_false_iff,
        List.cons_append] at h ⊢
      rcases h with h | h
      · exact Or.inl h
      · exact Or.inr (ih ps s h)

theorem cut_append_clear (pat : JSString) : ∀ (pre s : JSString), clearOf pat pre = true →
    cut pat (pre ++ s) = match cut pat s with
      | some (a, b) => some (pre ++ a, b)
      | none => none := by
  intro pre
  induction pre with
  | nil =>
    intro s _
    cases hc : cut pat s with
    | none => simp [hc]
    | some ab => obtain ⟨a, b⟩ := ab; simp [hc]
  | cons c cs ih =>
    intro s h
    simp only [clearOf, Bool.and_eq_true, Bool.not_eq_true'] at h
    have hp : pat.isPrefixOf (c :: cs ++ s) = false :=
      isPrefixOf_append_false (c :: cs) pat s (by simpa using h.1)
    simp only [List.cons_append] at hp ⊢
    rw [cut, if_neg (by simp [hp]), ih s h.2]
    cases hc : cut pat s with
    | none => rfl
    | some ab => obtain ⟨a, b⟩ := ab; rfl

theorem cut_self_append {pat : JSString} (hp : pat ≠ []) (s : JSString) :
    cut pat (pat ++ s) = some ([], s) := by
  cases hpat : pat with
  | nil => exact absurd hpat hp
  | cons p ps =>
    have : (p :: ps).isPrefixOf (p :: ps ++ s) = true :=
      List.isPrefixOf_iff_prefix.mpr (List.prefix_append _ _)
    simp only [List.cons_append] at this ⊢
    rw [cut, if_pos this]
    simp

theorem matchV_skip : ∀ (pre s : JSString), (∀ c ∈ pre, c ≠ '?' ∧ c ≠ '&') →
    matchV (pre ++ s) = matchV s := by
  intro pre
  induction pre with
  | nil => intro s _; rfl
  | cons c cs ih =>
    intro s h
    have hc := h c (List.mem_cons_self _ _)
    simp only [List.cons_append, matchV]
    rw [if_neg (by simp [hc.1, hc.2])]
    exact ih s (fun d hd => h d (List.mem_cons_of_mem _ hd))

/-- C1: for an 11-character identifier over `[A-Za-z0-9_-]`, the short-link
form, the canonical watch-URL form and the bare identifier all extract to the
identifier itself. -/
theorem extractVideoId_three_forms (id : JSString) (hlen : id.length = 11)
    (hchars : ∀ c ∈ id, idChar c = true) :
    extractVideoId ("https://youtu.be/".toList ++ id) = some id ∧
    extractVideoId ("https://www.youtube.com/watch?v=".toList ++ id) = some id ∧
    extractVideoId id = some id := by
  have hdot : '.' ∉ id := not_mem_idChars hchars '.' (by decide)
  have hq : '?' ∉ id := not_mem_idChars hchars '?' (by decide)
  have hamp : ∀ c ∈ id, decide (c ≠ '&') = true := by
    intro c hc
    simpa using idChar_ne (hchars c hc) '&' (by decide)
  have hne : id ≠ [] := by
    intro h
    simp [h] at hlen
  have hcutS : cut shortMarker id = none := cut_none_of_not_mem (by decide) hdot
  have hcutW : cut watchMarker id = none := cut_none_of_not_mem (by decide) hdot
  refine ⟨?_, ?_, ?_⟩
  · have hc : cut shortMarker ("https://youtu.be/".toList ++ id) = some ("https://".toList, id) := by
      simp [cut, shortMarker]
    have hinc : includes shortMarker ("https://youtu.be/".toList ++ id) = true := by
      rw [includes, hc]; rfl
    rw [extract_short _ hinc, textAfter, hc]
    simp only
    rw [textBefore_of_not_mem (by decide : '.' ∈ shortMarker) hdot,
      textBefore_of_not_mem (by decide : '?' ∈ "?".toList) hq]
  · have hc : cut shortMarker ("https://www.youtube.com/watch?v=".toList ++ id) = none := by
      rw [cut_append_clear shortMarker _ id (by decide), hcutS]
    have hw : includes watchMarker ("https://www.youtube.com/watch?v=".toList ++ id) = true := by
      rw [includes_iff_occurs]
      exact ⟨"https://www.".toList, "?v=".toList ++ id, by simp [watchMarker]⟩
    have hm : matchV ("https://www.youtube.com/watch?v=".toList ++ id) = some id := by
      have hsplit : "https://www.youtube.com/watch?v=".toList ++ id =
          "https://www.youtube.com/watch".toList ++ ('?' :: 'v' :: '=' :: id) := by simp
      rw [hsplit, matchV_skip _ _ (by decide), matchV]
      simp only [List.take, List.drop, true_or, true_and, takeWhile_all id hamp]
      rw [if_pos hne]
    unfold extractVideoId
    rw [if_neg (by rw [includes, hc]; simp), if_pos hw, hm]
  · unfold extractVideoId
    rw [if_neg (by rw [includes, hcutS]; simp), if_neg (by rw [includes, hcutW]; simp),
      if_pos (by rw [jsLength_idChars id hchars, hlen])]

/-- Witness of C1 at the identifier `dQw4w9WgXcQ`. -/
theorem extractVideoId_three_forms_witness :
    "dQw4w9WgXcQ".toList.length = 11 ∧
    "dQw4w9WgXcQ".toList.all idChar = true ∧
    extractVideoId ("https://youtu.be/".toList ++ "dQw4w9WgXcQ".toList)
      = some "dQw4w9WgXcQ".toList ∧
    extractVideoId ("https://www.youtube.com/watch?v=".toList ++ "dQw4w9WgXcQ".toList)
      = some "dQw4w9WgXcQ".toList ∧
    extractVideoId "dQw4w9WgXcQ".toList = some "dQw4w9WgXcQ".toList :=
  ⟨by decide, by decide,
    extractVideoId_three_forms "dQw4w9WgXcQ".toList (by decide) (by decide)⟩

/-! ## The cache and the handlers -/

theorem extractVideoId_nil : extractVideoId [] = none := by decide

theorem apiAudio_valid (p : Providers) (clk : Clock) (cache : Cache) {req : Query}
    {raw id : JSString} (hq : queryInput req = some raw) (hx : extractVideoId raw = some id)
    (hid : id ≠ []) :
    apiAudio p clk cache req =
      match cache.get clk.atGet id with
      | some cached =>
        if truthy cached.audioUrl then
          { response := .ok cached, cache := cache, trace := [.cacheGet id] }
        else tryMethods p clk cache id [.cacheGet id]
      | none => tryMethods p clk cache id [.cacheGet id] := by
  have hraw : raw ≠ [] := by
    rintro rfl
    rw [extractVideoId_nil] at hx
    exact Option.noConfusion hx
  unfold apiAudio
  simp only [hq, hx, if_neg hraw, if_neg hid]

theorem Cache.get_mem {c : Cache} {t : Nat} {k : JSString} {r : Result}
    (h : c.get t k = some r) : ∃ e ∈ c, e.key = k ∧ e.value = r := by
  unfold Cache.get at h
  split at h
  · rename_i e he
    split at h
    · simp only [Option.some.injEq] at h
      exact ⟨e, List.mem_of_find?_eq_some he, by simpa using List.find?_some he, h⟩
    · exact Option.noConfusion h
  · exact Option.noConfusion h

theorem Cache.set_sound {c : Cache} (hc : c.Sound) (t : Nat) {k : JSString} {r : Result}
    (hk : k ≠ []) (hr : truthy r.audioUrl = true) : (c.set t k r).Sound := by
  intro e he
  unfold Cache.set at he
  rcases List.mem_cons.mp he with rfl | he
  · exact ⟨hr, hk⟩
  · exact hc e (List.mem_filter.mp he).1

theorem Cache.get_set (c : Cache) (t now : Nat) (k : JSString) (r : Result)
    (h : now ≤ t + stdTTL * 1000) : (c.set t k r).get now k = some r := by
  simp [Cache.get, Cache.set, h]

theorem tryAfterExplode_cache (p : Providers) (cache : Cache) (id : JSString)
    (tr : List Event) : (tryAfterExplode p cache id tr).cache = cache := by
  unfold tryAfterExplode
  split <;> rfl

theorem tryMethods_cache (p : Providers) (clk : Clock) (cache : Cache) (id : JSString)
    (tr : List Event) :
    (tryMethods p clk cache id tr).cache = cache ∨
    ∃ r, truthy r.audioUrl = true ∧
      (tryMethods p clk cache id tr).cache = cache.set clk.atSet id r := by
  unfold tryMethods tryAfterYtDlp tryAfterRapidAPI
  repeat' split
  all_goals first
    | exact Or.inl (tryAfterExplode_cache _ _ _ _)
    | exact Or.inr ⟨_, ‹_›, rfl⟩

theorem apiAudio_cache (p : Providers) (clk : Clock) (req : Query) (c : Cache) :
    (apiAudio p clk c req).cache = c ∨
    ∃ id r, id ≠ [] ∧ truthy r.audioUrl = true ∧
      (apiAudio p clk c req).cache = c.set clk.atSet id r := by
  unfold apiAudio
  split
  · exact Or.inl rfl
  · split
    · exact Or.inl rfl
    · split
      · exact Or.inl rfl
      · rename_i id _
        split
        · exact Or.inl rfl
        · rename_i hid
          have key := tryMethods_cache p clk c id [.cacheGet id]
          have key2 : (tryMethods p clk c id [.cacheGet id]).cache = c ∨
              ∃ k r, k ≠ [] ∧ truthy r.audioUrl = true ∧
                (tryMethods p clk c id [.cacheGet id]).cache = c.set clk.atSet k r := by
            rcases key with h | ⟨r, hr, h⟩
            · exact Or.inl h
            · exact Or.inr ⟨id, r, hid, hr, h⟩
          split
          · split
            · exact Or.inl rfl
            · exact key2
          · exact key2

theorem apiAudio_sound (p : Providers) (clk : Clock) (req : Query) {c : Cache}
    (hc : c.Sound) : (apiAudio p clk c req).cache.Sound := by
  rcases apiAudio_cache p clk req c with h | ⟨id, r, hid, hr, h⟩
  · rw [h]; exact hc
  · rw [h]; exact Cache.set_sound hc _ hid hr

theorem Reachable.sound {c : Cache} (h : Reachable c) : c.Sound := by
  induction h with
  | empty => intro e he; cases he
  | audio p clk req _ ih => exact apiAudio_sound p clk req ih
  | test key p ts id _ ih => exact ih

/-- C2: in a cache state reachable from the empty cache by `/api/audio` and
`/api/test` requests, when the cache holds a non-expired entry for the
identifier `X` the input extracts to, `/api/audio` answers with that entry,
performs the cache lookup only (no provider is invoked) and leaves the cache
as it was. -/
theorem cached_entry_returned {c : Cache} (hr : Reachable c) (p : Providers) (clk : Clock)
    (req : Query) (raw X : JSString) (entry : Result)
    (hq : queryInput req = some raw) (hx : extractVideoId raw = some X)
    (hget : c.get clk.atGet X = some entry) :
    (apiAudio p clk c req).response = .ok entry ∧
    (apiAudio p clk c req).trace = [.cacheGet X] ∧
    invocations (apiAudio p clk c req).trace = [] ∧
    (apiAudio p clk c req).cache = c := by
  obtain ⟨e, he, hk, hv⟩ := Cache.get_mem hget
  have hs := hr.sound e he
  have hX : X ≠ [] := hk ▸ hs.2
  have ht : truthy entry.audioUrl = true := hv ▸ hs.1
  rw [apiAudio_valid p clk c hq hx hX, hget]
  simp [ht, invocations]

theorem tryMethods_pass {p : Providers} {id : JSString} (clk : Clock) (cache : Cache)
    (tr : List Event) (h : hasAudio (p.tryYtDlp id) = false) :
    tryMethods p clk cache id tr = tryAfterYtDlp p clk cache id (tr ++ [.invoke .ytDlp id]) := by
  unfold tryMethods
  cases hr : p.tryYtDlp id with
  | none => rfl
  | some r =>
    rw [hr] at h
    simp only [hasAudio] at h
    simp [h]

theorem tryAfterYtDlp_pass {p : Providers} {id : JSString} (clk : Clock) (cache : Cache)
    (tr : List Event) (h : hasAudio (p.tryRapidAPI id) = false) :
    tryAfterYtDlp p clk cache id tr =
      tryAfterRapidAPI p clk cache id (tr ++ [.invoke .rapidAPI id]) := by
  unfold tryAfterYtDlp
  cases hr : p.tryRapidAPI id with
  | none => rfl
  | some r =>
    rw [hr] at h
    simp only [hasAudio] at h
    simp [h]

theorem tryAfterRapidAPI_pass {p : Providers} {id : JSString} (clk : Clock) (cache : Cache)
    (tr : List Event) (h : hasAudio (p.tryYouTubeExplode id) = false) :
    tryAfterRapidAPI p clk cache id tr =
      tryAfterExplode p cache id (tr ++ [.invoke .youTubeExplode id]) := by
  unfold tryAfterRapidAPI
  cases hr : p.tryYouTubeExplode id with
  | none => rfl
  | some r =>
    rw [hr] at h
    simp only [hasAudio] at h
    simp [h]

theorem tryMethods_hit {p : Providers} {id : JSString} {r : Result} (clk : Clock)
    (cache : Cache) (tr : List Event) (h : p.tryYtDlp id = some r)
    (ha : truthy r.audioUrl = true) :
    tryMethods p clk cache id tr =
      { response := .ok r, cache := cache.set clk.atSet id r
        trace := tr ++ [.invoke .ytDlp id, .cacheSet id r] } := by
  unfold tryMethods
  simp [h, ha]

theorem tryAfterYtDlp_hit {p : Providers} {id : JSString} {r : Result} (clk : Clock)
    (cache : Cache) (tr : List Event) (h : p.tryRapidAPI id = some r)
    (ha : truthy r.audioUrl = true) :
    tryAfterYtDlp p clk cache id tr =
      { response := .ok r, cache := cache.set clk.atSet id r
        trace := tr ++ [.invoke .rapidAPI id, .cacheSet id r] } := by
  unfold tryAfterYtDlp
  simp [h, ha]

theorem tryAfterRapidAPI_hit {p : Providers} {id : JSString} {r : Result} (clk : Clock)
    (cache : Cache) (tr : List Event) (h : p.tryYouTubeExplode id = some r)
    (ha : truthy r.audioUrl = true) :
    tryAfterRapidAPI p clk cache id tr =
      { response := .ok r, cache := cache.set clk.atSet id r
        trace := tr ++ [.invoke .youTubeExplode id, .cacheSet id r] } := by
  unfold tryAfterRapidAPI
  simp [h, ha]

theorem invocations_in_order (p : Providers) (clk : Clock) (cache : Cache) (req : Query) :
    invocations (apiAudio p clk cache req).trace <+: callOrder := by
  unfold apiAudio tryMethods tryAfterYtDlp tryAfterRapidAPI tryAfterExplode
  repeat' split
  all_goals simp only [invocations, List.cons_append, List.nil_append, List.append_assoc]
  all_goals decide

/-- C3: on a cache miss the providers are called in the order `tryYtDlp`,
`tryRapidAPI`, `tryYouTubeExplode`, `tryOEmbed`; when `P` is the first
stream-capable provider whose result has a truthy `audioUrl`, the answer is
that result, the cache afterwards maps the identifier to it, the providers
before `P` were each called once and none after `P` is called. -/
theorem first_stream_result_wins (p : Providers) (clk : Clock) (cache : Cache) (req : Query)
    (raw id : JSString) (P : Provider) (r : Result)
    (hq : queryInput req = some raw) (hx : extractVideoId raw = some id) (hid : id ≠ [])
    (hmiss : cache.get clk.atGet id = none)
    (hP : P ∈ streamCapable) (hr : p.run P id = some r) (ha : truthy r.audioUrl = true)
    (hbefore : ∀ Q ∈ streamCapable.takeWhile (fun Q => decide (Q ≠ P)),
      hasAudio (p.run Q id) = false) :
    invocations (apiAudio p clk cache req).trace <+: callOrder ∧
    (apiAudio p clk cache req).response = .ok r ∧
    (apiAudio p clk cache req).cache = cache.set clk.atSet id r ∧
    (∀ now, now ≤ clk.atSet + stdTTL * 1000 →
      (apiAudio p clk cache req).cache.get now id = some r) ∧
    (apiAudio p clk cache req).trace =
      .cacheGet id :: ((callOrder.takeWhile (fun Q => decide (Q ≠ P))).map
        (fun Q => Event.invoke Q id) ++ [.invoke P id, .cacheSet id r]) := by
  refine ⟨invocations_in_order p clk cache req, ?_⟩
  rw [apiAudio_valid p clk cache hq hx hid, hmiss]
  simp only
  simp only [streamCapable, List.mem_cons, List.mem_singleton, List.not_mem_nil, or_false] at hP
  rcases hP with rfl | rfl | rfl
  · rw [tryMethods_hit clk cache _ hr ha]
    exact ⟨rfl, rfl, fun now h => Cache.get_set cache _ now id r h, rfl⟩
  · have h1 : hasAudio (p.tryYtDlp id) = false := hbefore .ytDlp (by decide)
    rw [tryMethods_pass clk cache _ h1, tryAfterYtDlp_hit clk cache _ hr ha]
    exact ⟨rfl, rfl, fun now h => Cache.get_set cache _ now id r h, rfl⟩
  · have h1 : hasAudio (p.tryYtDlp id) = false := hbefore .ytDlp (by decide)
    have h2 : hasAudio (p.tryRapidAPI id) = false := hbefore .rapidAPI (by decide)
    rw [tryMethods_pass clk cache _ h1, tryAfterYtDlp_pass clk cache _ h2,
      tryAfterRapidAPI_hit clk cache _ hr ha]
    exact ⟨rfl, rfl, fun now h => Cache.get_set cache _ now id r h, rfl⟩

theorem Cache.get_none_mono {c : Cache} {t t1 : Nat} {k : JSString} (ht : t ≤ t1)
    (h : c.get t k = none) : c.get t1 k = none := by
  unfold Cache.get at h ⊢
  split
  · rename_i e he
    rw [he] at h
    simp only at h
    split at h
    · exact Option.noConfusion h
    · rename_i hn
      rw [if_neg (by omega)]
  · rfl

theorem tryMethods_all_null {p : Providers} {id : JSString} (clk : Clock) (cache : Cache)
    (tr : List Event) (h1 : p.tryYtDlp id = none) (h2 : p.tryRapidAPI id = none)
    (h3 : p.tryYouTubeExplode id = none) :
    tryMethods p clk cache id tr =
      tryAfterExplode p cache id (tr ++ [.invoke .ytDlp id, .invoke .rapidAPI id,
        .invoke .youTubeExplode id]) := by
  rw [tryMethods_pass clk cache _ (by rw [h1]; rfl),
    tryAfterYtDlp_pass clk cache _ (by rw [h2]; rfl),
    tryAfterRapidAPI_pass clk cache _ (by rw [h3]; rfl)]
  simp

/-- C9: on a cache miss, when all four providers return `null`, the answer is
the status-500 failure report with `success: false`, the non-empty details
text `All methods failed` and non-empty `setup_instructions`; each provider was
called exactly once and the cache is unchanged. -/
theorem all_methods_failed (p : Providers) (clk : Clock) (cache : Cache) (req : Query)
    (raw id : JSString)
    (hq : queryInput req = some raw) (hx : extractVideoId raw = some id) (hid : id ≠ [])
    (hmiss : cache.get clk.atGet id = none)
    (h1 : p.tryYtDlp id = none) (h2 : p.tryRapidAPI id = none)
    (h3 : p.tryYouTubeExplode id = none) (h4 : p.tryOEmbed id = none) :
    (apiAudio p clk cache req).response =
      .failure "Failed to process video" "All methods failed" setupInstructions ∧
    (apiAudio p clk cache req).response.status = 500 ∧
    (apiAudio p clk cache req).response.success = some false ∧
    "All methods failed" ≠ "" ∧ setupInstructions ≠ [] ∧
    (∀ kv ∈ setupInstructions, kv.2 ≠ "") ∧
    (apiAudio p clk cache req).trace =
      [.cacheGet id, .invoke .ytDlp id, .invoke .rapidAPI id, .invoke .youTubeExplode id,
        .invoke .oEmbed id] ∧
    invocations (apiAudio p clk cache req).trace = callOrder ∧
    (apiAudio p clk cache req).cache = cache := by
  rw [apiAudio_valid p clk cache hq hx hid, hmiss]
  simp only
  rw [tryMethods_all_null clk cache _ h1 h2 h3]
  unfold tryAfterExplode
  rw [h4]
  refine ⟨rfl, rfl, rfl, by decide, by decide, by decide, rfl, rfl, rfl⟩

/-- C4: on a cache miss, when `tryYtDlp`, `tryRapidAPI` and
`tryYouTubeExplode` return `null` and `tryOEmbed` returns a result, the answer
is that result, its `audioUrl` is `null` and its `warning` a non-empty text,
the cache is unchanged, and a later identical request calls all four providers
again. -/
theorem info_only_not_cached (u : Upstream) (clk : Clock) (cache : Cache) (req : Query)
    (raw id : JSString) (r : Result)
    (hq : queryInput req = some raw) (hx : extractVideoId raw = some id) (hid : id ≠ [])
    (hmiss : cache.get clk.atGet id = none)
    (h1 : tryYtDlp u id = none) (h2 : tryRapidAPI u id = none)
    (h3 : tryYouTubeExplode u id = none) (h4 : tryOEmbed u id = some r) :
    (apiAudio (providersOf u) clk cache req).response = .ok r ∧
    r.audioUrl = .null ∧ r.warning = some oEmbedWarning ∧ oEmbedWarning ≠ "" ∧
    (apiAudio (providersOf u) clk cache req).cache = cache ∧
    (apiAudio (providersOf u) clk cache req).trace =
      [.cacheGet id, .invoke .ytDlp id, .invoke .rapidAPI id, .invoke .youTubeExplode id,
        .invoke .oEmbed id] ∧
    ∀ clk2 : Clock, clk.atGet ≤ clk2.atGet →
      (apiAudio (providersOf u) clk2 (apiAudio (providersOf u) clk cache req).cache req).trace =
        [.cacheGet id, .invoke .ytDlp id, .invoke .rapidAPI id, .invoke .youTubeExplode id,
          .invoke .oEmbed id] := by
  have key : ∀ clk2 : Clock, clk.atGet ≤ clk2.atGet →
      apiAudio (providersOf u) clk2 cache req =
        { response := .ok r, cache := cache
          trace := [.cacheGet id, .invoke .ytDlp id, .invoke .rapidAPI id,
            .invoke .youTubeExplode id, .invoke .oEmbed id] } := by
    intro clk2 hle
    rw [apiAudio_valid (providersOf u) clk2 cache hq hx hid, Cache.get_none_mono hle hmiss]
    simp only
    rw [tryMethods_all_null clk2 cache _ h1 h2 h3]
    unfold tryAfterExplode
    simp only [providersOf, h4]
    rfl
  have hfields : r.audioUrl = .null ∧ r.warning = some oEmbedWarning := by
    unfold tryOEmbed at h4
    split at h4
    · exact Option.noConfusion h4
    · simp only [Option.some.injEq] at h4
      rw [← h4]
      exact ⟨rfl, rfl⟩
  rw [key clk le_rfl]
  refine ⟨rfl, hfields.1, hfields.2, by decide, rfl, rfl, ?_⟩
  intro clk2 hle
  simp only
  rw [key clk2 hle]

/-- C5: the handler of `/api/test/:videoId` leaves the cache unchanged and
performs provider calls only, so every later lookup and every later
`/api/audio` request behaves as it would have without the probe. -/
theorem probe_leaves_cache (key : JSString) (p : Providers) (ts : JSString) (cache : Cache)
    (videoId : JSString) :
    (apiTest key p ts cache videoId).cache = cache ∧
    (∀ e ∈ (apiTest key p ts cache videoId).trace, ∃ P, e = Event.invoke P videoId) ∧
    (∀ now k, (apiTest key p ts cache videoId).cache.get now k = cache.get now k) ∧
    ∀ (p2 : Providers) (clk : Clock) (req : Query),
      apiAudio p2 clk (apiTest key p ts cache videoId).cache req = apiAudio p2 clk cache req := by
  refine ⟨rfl, ?_, fun _ _ => rfl, fun _ _ _ => rfl⟩
  intro e he
  simp only [apiTest, List.mem_cons, List.mem_singleton, List.not_mem_nil, or_false] at he
  rcases he with rfl | rfl | rfl | rfl <;> exact ⟨_, rfl⟩

/-- C8: for an input holding neither marker whose length is not 11,
`extractVideoId` returns `null` and `/api/audio` answers with a status-400
error of `success: false` (`Invalid YouTube URL or video ID` for a non-empty
input, `No URL provided` for the empty one, which the guard on `url` catches
first) without any cache operation or provider call. -/
theorem unrecognized_input_rejected (raw : JSString)
    (hs : includes shortMarker raw = false) (hw : includes watchMarker raw = false)
    (hl : jsLength raw ≠ 11) :
    extractVideoId raw = none ∧
    ∀ (p : Providers) (clk : Clock) (cache : Cache) (req : Query), queryInput req = some raw →
      (apiAudio p clk cache req).response.status = 400 ∧
      (apiAudio p clk cache req).response.success = some false ∧
      (raw ≠ [] → (apiAudio p clk cache req).response =
        .badRequest "Invalid YouTube URL or video ID") ∧
      (raw = [] → (apiAudio p clk cache req).response =
        .badRequest "No URL provided. Use ?url=YOUTUBE_URL or ?v=VIDEO_ID") ∧
      (apiAudio p clk cache req).trace = [] ∧
      (apiAudio p clk cache req).cache = cache := by
  have hx : extractVideoId raw = none := by
    unfold extractVideoId
    rw [if_neg (by simp [hs]), if_neg (by simp [hw]), if_neg hl]
  refine ⟨hx, ?_⟩
  intro p clk cache req hq
  unfold apiAudio
  simp only [hq, hx]
  by_cases hraw : raw = []
  · simp [hraw, Response.status, Response.success]
  · simp [hraw, Response.status, Response.success]

/-! ## The remaining claims and the witnesses -/

/-- C6 as stated fails: it is not true that for every input holding the
short-link marker the result is the text after the first marker up to the next
`?`; on `youtu.be/abcyoutu.be/def` the result is `abc`. -/
theorem short_link_rest_counterexample :
    ¬ ∀ raw : JSString, includes shortMarker raw = true →
      extractVideoId raw = some (textBefore "?".toList (textAfter shortMarker raw)) := by
  intro h
  have h1 := h "youtu.be/abcyoutu.be/def".toList (by decide)
  revert h1
  decide

/-- C6, amended: for every input holding the short-link marker, the result is
the text that begins right after the first occurrence of the marker and ends
just before the next `?` or the next occurrence of the marker, whichever comes
first, or at the end of the input; nothing else is checked. -/
theorem short_link_piece (raw : JSString) (h : includes shortMarker raw = true) :
    (∃ pre rest, raw = pre ++ shortMarker ++ rest ∧
      (∀ a b, raw = a ++ shortMarker ++ b → pre.length ≤ a.length) ∧
      textAfter shortMarker raw = rest) ∧
    extractVideoId raw =
      some (textBefore "?".toList (textBefore shortMarker (textAfter shortMarker raw))) := by
  refine ⟨?_, extract_short raw h⟩
  unfold includes at h
  cases hc : cut shortMarker raw with
  | none => simp [hc] at h
  | some ab =>
    obtain ⟨a, b⟩ := ab
    exact ⟨a, b, cut_eq_some hc, cut_first hc, by simp [textAfter, hc]⟩

/-- Witness of the amended C6 at `youtu.be/abcyoutu.be/def`. -/
theorem short_link_piece_witness :
    includes shortMarker "youtu.be/abcyoutu.be/def".toList = true ∧
    extractVideoId "youtu.be/abcyoutu.be/def".toList =
      some (textBefore "?".toList (textBefore shortMarker
        (textAfter shortMarker "youtu.be/abcyoutu.be/def".toList))) :=
  ⟨by decide, (short_link_piece "youtu.be/abcyoutu.be/def".toList (by decide)).2⟩

/-- C7 as stated fails: `https://youtu.be/abc` extracts to the 3-character
identifier `abc`. -/
theorem identifier_length_counterexample :
    ¬ ∀ raw id : JSString, extractVideoId raw = some id → jsLength id = 11 := by
  intro h
  have h1 := h "https://youtu.be/abc".toList "abc".toList (by decide)
  revert h1
  decide

theorem cut_of_not_includes {pat s : JSString} (h : includes pat s = false) :
    cut pat s = none := by
  unfold includes at h
  cases hc : cut pat s with
  | none => rfl
  | some ab => rw [hc] at h; exact Bool.noConfusion h

theorem jsLength_replicate (n : Nat) : jsLength (List.replicate n 'a') = n := by
  induction n with
  | zero => rfl
  | succ n ih =>
    simp only [List.replicate_succ, jsLength, ih]
    have : codeUnits 'a' = 1 := by decide
    omega

theorem extract_short_link (s : JSString) (hs : includes shortMarker s = false)
    (hq : '?' ∉ s) :
    includes shortMarker ("https://youtu.be/".toList ++ s) = true ∧
    extractVideoId ("https://youtu.be/".toList ++ s) = some s := by
  have hcut := cut_of_not_includes hs
  have hc : cut shortMarker ("https://youtu.be/".toList ++ s) = some ("https://".toList, s) := by
    have hsplit : "https://youtu.be/".toList ++ s = "https://".toList ++ (shortMarker ++ s) := by
      simp [shortMarker]
    rw [hsplit, cut_append_clear shortMarker _ _ (by decide), cut_self_append shortMarker_ne]
    simp
  have hinc : includes shortMarker ("https://youtu.be/".toList ++ s) = true := by
    rw [includes, hc]; rfl
  refine ⟨hinc, ?_⟩
  rw [extract_short _ hinc, textAfter, hc]
  simp only
  have hb : textBefore shortMarker s = s := by
    rw [textBefore, hcut]
  rw [hb, textBefore_of_not_mem (by decide : '?' ∈ "?".toList) hq]

theorem extract_watch_url (s : JSString) (hne : s ≠ [])
    (hs : includes shortMarker s = false) (ha : '&' ∉ s) :
    includes shortMarker ("https://www.youtube.com/watch?v=".toList ++ s) = false ∧
    includes watchMarker ("https://www.youtube.com/watch?v=".toList ++ s) = true ∧
    extractVideoId ("https://www.youtube.com/watch?v=".toList ++ s) = some s := by
  have hcut := cut_of_not_includes hs
  have hamp : ∀ c ∈ s, decide (c ≠ '&') = true := by
    intro c hc
    simp only [ne_eq, decide_not, Bool.not_eq_true', decide_eq_false_iff_not]
    rintro rfl
    exact ha hc
  have hc : cut shortMarker ("https://www.youtube.com/watch?v=".toList ++ s) = none := by
    rw [cut_append_clear shortMarker _ s (by decide), hcut]
  have hns : includes shortMarker ("https://www.youtube.com/watch?v=".toList ++ s) = false := by
    rw [includes, hc]; rfl
  have hw : includes watchMarker ("https://www.youtube.com/watch?v=".toList ++ s) = true := by
    rw [includes_iff_occurs]
    exact ⟨"https://www.".toList, "?v=".toList ++ s, by simp [watchMarker]⟩
  have hm : matchV ("https://www.youtube.com/watch?v=".toList ++ s) = some s := by
    have hsplit : "https://www.youtube.com/watch?v=".toList ++ s =
        "https://www.youtube.com/watch".toList ++ ('?' :: 'v' :: '=' :: s) := by simp
    rw [hsplit, matchV_skip _ _ (by decide), matchV]
    simp only [List.take, List.drop, true_or, true_and, takeWhile_all s hamp]
    rw [if_pos hne]
  refine ⟨hns, hw, ?_⟩
  unfold extractVideoId
  rw [if_neg (by rw [hns]; simp), if_pos hw, hm]

theorem not_includes_replicate (n : Nat) :
    includes shortMarker (List.replicate n 'a') = false := by
  have : cut shortMarker (List.replicate n 'a') = none :=
    cut_none_of_not_mem (by decide : '.' ∈ shortMarker)
      (by intro h; have := List.eq_of_mem_replicate h; revert this; decide)
  rw [includes, this]; rfl

theorem not_mem_replicate_a (n : Nat) (x : Char) (hx : x ≠ 'a') :
    x ∉ List.replicate n 'a' := by
  intro h
  exact hx (List.eq_of_mem_replicate h)

/-- C7, amended: for an input holding neither marker on which
`extractVideoId` succeeds, the identifier is the input itself, of length
exactly 11; an identifier taken from a short link or from a watch URL is
accepted with any length: `https://youtu.be/` followed by `s` extracts to `s`
for every `s` without `?` and without the marker, and
`https://www.youtube.com/watch?v=` followed by `s` extracts to `s` for every
non-empty `s` without `&` and without the short-link marker, so identifiers of
every length (every positive length for a watch URL) are returned. -/
theorem identifier_length_by_form :
    (∀ raw id : JSString, includes shortMarker raw = false →
      includes watchMarker raw = false → extractVideoId raw = some id →
      id = raw ∧ jsLength id = 11) ∧
    (∀ s : JSString, includes shortMarker s = false → '?' ∉ s →
      includes shortMarker ("https://youtu.be/".toList ++ s) = true ∧
      extractVideoId ("https://youtu.be/".toList ++ s) = some s) ∧
    (∀ s : JSString, s ≠ [] → includes shortMarker s = false → '&' ∉ s →
      includes shortMarker ("https://www.youtube.com/watch?v=".toList ++ s) = false ∧
      includes watchMarker ("https://www.youtube.com/watch?v=".toList ++ s) = true ∧
      extractVideoId ("https://www.youtube.com/watch?v=".toList ++ s) = some s) ∧
    (∀ n : Nat,
      extractVideoId ("https://youtu.be/".toList ++ List.replicate n 'a')
        = some (List.replicate n 'a') ∧
      jsLength (List.replicate n 'a') = n) ∧
    (∀ n : Nat, 0 < n →
      extractVideoId ("https://www.youtube.com/watch?v=".toList ++ List.replicate n 'a')
        = some (List.replicate n 'a') ∧
      jsLength (List.replicate n 'a') = n) := by
  refine ⟨?_, extract_short_link, extract_watch_url, ?_, ?_⟩
  · intro raw id hs hw hx
    unfold extractVideoId at hx
    rw [if_neg (by simp [hs]), if_neg (by simp [hw])] at hx
    split at hx
    · rename_i hl
      simp only [Option.some.injEq] at hx
      subst hx
      exact ⟨rfl, hl⟩
    · exact Option.noConfusion hx
  · intro n
    exact ⟨(extract_short_link _ (not_includes_replicate n)
      (not_mem_replicate_a n '?' (by decide))).2, jsLength_replicate n⟩
  · intro n hn
    have hne : List.replicate n 'a' ≠ [] := by
      intro h
      have := congrArg List.length h
      simp at this
      omega
    exact ⟨(extract_watch_url _ hne (not_includes_replicate n)
      (not_mem_replicate_a n '&' (by decide))).2.2, jsLength_replicate n⟩

/-- Witness of the amended C7 at `dQw4w9WgXcQ`, at the short link of `abc`
and at the watch URL of a 15-character identifier. -/
theorem identifier_length_by_form_witness :
    (extractVideoId sampleId = some sampleId ∧ jsLength sampleId = 11) ∧
    (extractVideoId "https://youtu.be/abc".toList = some "abc".toList ∧
      jsLength "abc".toList = 3) ∧
    (extractVideoId "https://www.youtube.com/watch?v=abcdefghijklmno".toList
        = some "abcdefghijklmno".toList ∧
      jsLength "abcdefghijklmno".toList = 15) :=
  ⟨⟨by decide,
      (identifier_length_by_form.1 sampleId sampleId (by decide) (by decide) (by decide)).2⟩,
    ⟨(identifier_length_by_form.2.1 "abc".toList (by decide) (by decide)).2, by decide⟩,
    ⟨(identifier_length_by_form.2.2.1 "abcdefghijklmno".toList (by decide) (by decide)
      (by decide)).2.2, by decide⟩⟩

/-- C10, the code at the failing input: for an oEmbed payload without
`author_name` and a yt-dlp document without `uploader` and `channel`, the
result of `tryOEmbed` and of `tryYtDlp` has `author` undefined, not the text
`Unknown`. -/
theorem author_left_undefined :
    (tryOEmbed sampleUpstream sampleId).map (fun r => r.author) = some JSVal.undefined ∧
    (tryYtDlp sampleUpstreamYtDlp sampleId).map (fun r => r.author) = some JSVal.undefined ∧
    JSVal.undefined ≠ JSVal.str "Unknown".toList := by
  refine ⟨rfl, rfl, ?_⟩
  intro h
  exact JSVal.noConfusion h

/-- The two keyed services do default an omitted author to `Unknown`. -/
theorem keyed_author_default (u : Upstream) (id : JSString) (r : Result) (data : KeyedData)
    (hd : data.author = .undefined) :
    (u.rapidApi id = some data → tryRapidAPI u id = some r →
      r.author = .str "Unknown".toList) ∧
    (u.youTubeExplode id = some data → tryYouTubeExplode u id = some r →
      r.author = .str "Unknown".toList) := by
  constructor
  · intro hu hr
    unfold tryRapidAPI at hr
    rw [hu] at hr
    split at hr
    · exact Option.noConfusion hr
    · simp only at hr
      split at hr
      · simp only [Option.some.injEq] at hr
        rw [← hr]
        simp [jsOr, hd, truthy]
      · exact Option.noConfusion hr
  · intro hu hr
    unfold tryYouTubeExplode at hr
    rw [hu] at hr
    split at hr
    · exact Option.noConfusion hr
    · simp only at hr
      split at hr
      · simp only [Option.some.injEq] at hr
        rw [← hr]
        simp [jsOr, hd, truthy]
      · exact Option.noConfusion hr

/-- Witness of C2: a second request for an identifier cached by a first one. -/
theorem cached_entry_returned_witness :
    (apiAudio nullProviders sampleClock
      (apiAudio rapidOnlyProviders sampleClock [] sampleQuery).cache sampleQuery).response
        = .ok (sampleResult sampleId) ∧
    (apiAudio nullProviders sampleClock
      (apiAudio rapidOnlyProviders sampleClock [] sampleQuery).cache sampleQuery).trace
        = [.cacheGet sampleId] :=
  have h := cached_entry_returned
    (Reachable.audio rapidOnlyProviders sampleClock sampleQuery Reachable.empty)
    nullProviders sampleClock sampleQuery sampleId sampleId (sampleResult sampleId)
    rfl (by decide) rfl
  ⟨h.1, h.2.1⟩

/-- Witness of C3 with `tryRapidAPI` the first provider with a stream. -/
theorem first_stream_result_wins_witness :
    (apiAudio rapidOnlyProviders sampleClock [] sampleQuery).response
      = .ok (sampleResult sampleId) ∧
    (apiAudio rapidOnlyProviders sampleClock [] sampleQuery).trace =
      [.cacheGet sampleId, .invoke .ytDlp sampleId, .invoke .rapidAPI sampleId,
        .cacheSet sampleId (sampleResult sampleId)] :=
  have h := first_stream_result_wins rapidOnlyProviders sampleClock [] sampleQuery
    sampleId sampleId .rapidAPI (sampleResult sampleId) rfl (by decide) (by decide) rfl
    (by decide) rfl rfl (by decide)
  ⟨h.2.1, h.2.2.2.2⟩

/-- Witness of C9 with providers that all return `null`. -/
theorem all_methods_failed_witness :
    (apiAudio nullProviders sampleClock [] sampleQuery).response.status = 500 ∧
    (apiAudio nullProviders sampleClock [] sampleQuery).cache = [] :=
  have h := all_methods_failed nullProviders sampleClock [] sampleQuery sampleId sampleId
    rfl (by decide) (by decide) rfl rfl rfl rfl rfl
  ⟨h.2.1, h.2.2.2.2.2.2.2.2⟩

/-- Witness of C4 in a world where only oEmbed answers. -/
theorem info_only_not_cached_witness :
    (apiAudio (providersOf sampleUpstream) sampleClock [] sampleQuery).response.status = 200 ∧
    (apiAudio (providersOf sampleUpstream) sampleClock [] sampleQuery).cache = [] :=
  have h := info_only_not_cached sampleUpstream sampleClock [] sampleQuery sampleId sampleId
    _ rfl (by decide) (by decide) rfl rfl rfl rfl rfl
  ⟨by rw [h.1]; rfl, h.2.2.2.2.1⟩

/-- Witness of C8 at the 14-character input `not a video id`. -/
theorem unrecognized_input_rejected_witness :
    extractVideoId "not a video id".toList = none ∧
    (apiAudio nullProviders sampleClock []
      { url := some "not a video id".toList, v := none }).response =
        .badRequest "Invalid YouTube URL or video ID" ∧
    (apiAudio nullProviders sampleClock []
      { url := some "not a video id".toList, v := none }).trace = [] :=
  have h := unrecognized_input_rejected "not a video id".toList (by decide) (by decide)
    (by decide)
  have h2 := h.2 nullProviders sampleClock []
    { url := some "not a video id".toList, v := none } rfl
  ⟨h.1, h2.2.2.1 (by decide), h2.2.2.2.2.1⟩

end AudioApi
